import Mathlib

/-!
Verification development for the tradingview-scraper repository.

The Go sources under scrutiny live in `socket.go` (connection engine, frame
codec, quote decoder, handshake) together with the type declarations
(`SocketMessage`, `QuoteMessage`, `QuoteData`, `Flags`).  The development
shallowly embeds that code: raw wire data is a list of characters standing
for bytes, fallible Go operations return explicit result types, and Go
runtime panics (out-of-range slice accesses, nil dereferences, failed type
assertions) are modelled as explicit `panicked` outcomes.  JSON values are
modelled by an inductive type with numbers as rationals; the model of
`encoding/json` and `mapstructure` decoding follows the observable
behaviour of those libraries on the shapes this program uses.
-/

namespace TV

/-- Raw wire data: a sequence of bytes, modelled as characters. -/
abbrev Bytes := List Char

/-- Decimal number `m * 10 ^ e` in normalized form (`m` not divisible by
ten unless zero, and zero is `⟨0, 0⟩`), the model of the float64 values the
program decodes from JSON: the program performs no arithmetic on them, only
decoding and equality comparison, and on the decimal literals of this wire
protocol equality of normalized decimals coincides with equality of the
decoded doubles. -/
structure Dec where
  m : Int
  e : Int
deriving DecidableEq, Repr

/-- Strip trailing decimal zeros from the mantissa (fuel-bounded so the
kernel can evaluate it; the fuel is an upper bound on the digit count). -/
def normDecAux : Nat → Int → Int → Dec
  | 0, m, e => ⟨m, e⟩
  | fuel + 1, m, e =>
    if m = 0 then ⟨0, 0⟩
    else if m % 10 = 0 then normDecAux fuel (m / 10) (e + 1)
    else ⟨m, e⟩

/-- Normalized decimal from mantissa and exponent. -/
def mkDec (m e : Int) : Dec := normDecAux m.natAbs m e

/-- QuoteData from the type declarations: four optional floats keyed by the
mapstructure tags `lp`, `volume`, `bid`, `ask`. -/
structure QuoteData where
  price : Option Dec
  volume : Option Dec
  bid : Option Dec
  ask : Option Dec
deriving DecidableEq, Repr, Inhabited

/-- QuoteMessage from the type declarations: mapstructure tags `n` (symbol),
`s` (status), `v` (data, a nullable pointer). -/
structure QuoteMessage where
  symbol : Bytes
  status : Bytes
  data : Option QuoteData

/-- JSON values, the model of Go `interface\x7b\x7d` values produced by
`encoding/json`, with numbers as normalized decimals. -/
inductive Json where
  | null
  | bool (b : Bool)
  | num (q : Dec)
  | str (s : Bytes)
  | arr (elems : List Json)
  | obj (members : List (Bytes × Json))

instance : Inhabited Json := ⟨Json.null⟩

/-- SocketMessage from the type declarations: json tags `m` and `p`.  The
payload is `none` when the JSON key `p` is absent or null (a nil Go
interface value). -/
structure SocketMessage where
  message : Bytes
  payload : Option Json

/-- Whitespace characters insignificant between JSON tokens. -/
def isJsonWs (c : Char) : Bool :=
  c = ' ' || c = '\t' || c = '\n' || c = '\r'

/-- Drop leading JSON whitespace. -/
def skipWs : Bytes → Bytes
  | [] => []
  | c :: rest => if isJsonWs c then skipWs rest else c :: rest

/-- Decimal digit value of a character, if any. -/
def digitVal (c : Char) : Option Nat :=
  if '0' ≤ c ∧ c ≤ '9' then some (c.toNat - 48) else none

/-- Hexadecimal digit value of a character, if any. -/
def hexVal (c : Char) : Option Nat :=
  if '0' ≤ c ∧ c ≤ '9' then some (c.toNat - 48)
  else if 'a' ≤ c ∧ c ≤ 'f' then some (c.toNat - 87)
  else if 'A' ≤ c ∧ c ≤ 'F' then some (c.toNat - 55)
  else none

/-- Character denoted by a single-character JSON escape sequence. -/
def escChar : Char → Option Char
  | '"' => some '"'
  | '\\' => some '\\'
  | '/' => some '/'
  | 'b' => some (Char.ofNat 8)
  | 'f' => some (Char.ofNat 12)
  | 'n' => some '\n'
  | 'r' => some (Char.ofNat 13)
  | 't' => some '\t'
  | _ => none

/-- Parse the body of a JSON string after the opening quote, returning the
content and the input after the closing quote. -/
def parseStringBody : Nat → Bytes → Option (Bytes × Bytes)
  | 0, _ => none
  | _ + 1, [] => none
  | fuel + 1, c :: rest =>
    if c = '"' then some ([], rest)
    else if c = '\\' then
      match rest with
      | [] => none
      | e :: rest2 =>
        if e = 'u' then
          match rest2 with
          | h1 :: h2 :: h3 :: h4 :: rest3 =>
            match hexVal h1, hexVal h2, hexVal h3, hexVal h4 with
            | some a, some b, some c2, some d =>
              (parseStringBody fuel rest3).map
                (fun p => (Char.ofNat (((a * 16 + b) * 16 + c2) * 16 + d) :: p.1, p.2))
            | _, _, _, _ => none
          | _ => none
        else
          match escChar e with
          | some ec => (parseStringBody fuel rest2).map (fun p => (ec :: p.1, p.2))
          | none => none
    else if c.toNat < 32 then none
    else (parseStringBody fuel rest).map (fun p => (c :: p.1, p.2))

/-- Longest digit prefix of the input, with the remainder. -/
def spanDigits : Bytes → Bytes × Bytes
  | [] => ([], [])
  | c :: rest =>
    if ('0' ≤ c ∧ c ≤ '9') then
      let p := spanDigits rest
      (c :: p.1, p.2)
    else ([], c :: rest)

/-- Numeric value of a digit string, most significant digit first. -/
def digitsToNat (ds : Bytes) : Nat :=
  ds.foldl (fun acc c => 10 * acc + (c.toNat - 48)) 0

/-- Parse a JSON number (the strict RFC grammar used by Go encoding/json),
returning its decimal value and the remaining input. -/
def parseNumber (s : Bytes) : Option (Dec × Bytes) :=
  let signed : Bool × Bytes :=
    match s with
    | '-' :: r => (true, r)
    | _ => (false, s)
  let neg := signed.1
  let s1 := signed.2
  match spanDigits s1 with
  | ([], _) => none
  | (ds, s2) =>
    if ds.length > 1 ∧ ds.headD '0' = '0' then none
    else
      let intPart := digitsToNat ds
      let fracStep : Option (Nat × Nat × Bytes) :=
        match s2 with
        | '.' :: s3 =>
          match spanDigits s3 with
          | ([], _) => none
          | (fs, s4) => some (digitsToNat fs, fs.length, s4)
        | _ => some (0, 0, s2)
      match fracStep with
      | none => none
      | some (fracPart, fracLen, s5) =>
        let expStep : Option (Int × Bytes) :=
          match s5 with
          | 'e' :: s6 | 'E' :: s6 =>
            let esigned : Bool × Bytes :=
              match s6 with
              | '-' :: r => (true, r)
              | '+' :: r => (false, r)
              | _ => (false, s6)
            match spanDigits esigned.2 with
            | ([], _) => none
            | (es, s7) =>
              some (if esigned.1 then -(digitsToNat es : Int) else (digitsToNat es : Int), s7)
          | _ => some (0, s5)
        match expStep with
        | none => none
        | some (e, s8) =>
          let m0 : Int := intPart * 10 ^ fracLen + fracPart
          some (mkDec (if neg then -m0 else m0) (e - fracLen), s8)

/-- Parsing mode: a single value, the element list of an array, or the
member list of an object. -/
inductive PMode where
  | value
  | elems (acc : List Json)
  | members (acc : List (Bytes × Json))

/-- Recursive JSON parser (fuel-bounded so that it is structurally
recursive and evaluates inside the kernel). -/
def parseJ : Nat → PMode → Bytes → Option (Json × Bytes)
  | 0, _, _ => none
  | fuel + 1, .value, s =>
    match skipWs s with
    | [] => none
    | c :: rest =>
      if c = 'n' then
        match rest with
        | 'u' :: 'l' :: 'l' :: r => some (.null, r)
        | _ => none
      else if c = 't' then
        match rest with
        | 'r' :: 'u' :: 'e' :: r => some (.bool true, r)
        | _ => none
      else if c = 'f' then
        match rest with
        | 'a' :: 'l' :: 's' :: 'e' :: r => some (.bool false, r)
        | _ => none
      else if c = '"' then
        (parseStringBody (fuel + 1) rest).map (fun p => (.str p.1, p.2))
      else if c = '[' then
        match skipWs rest with
        | ']' :: r => some (.arr [], r)
        | s2 => parseJ fuel (.elems []) s2
      else if c = '\x7b' then
        match skipWs rest with
        | '\x7d' :: r => some (.obj [], r)
        | s2 => parseJ fuel (.members []) s2
      else
        (parseNumber (c :: rest)).map (fun p => (.num p.1, p.2))
  | fuel + 1, .elems acc, s =>
    match parseJ fuel .value s with
    | none => none
    | some (v, r) =>
      match skipWs r with
      | ',' :: r2 => parseJ fuel (.elems (acc ++ [v])) r2
      | ']' :: r2 => some (.arr (acc ++ [v]), r2)
      | _ => none
  | fuel + 1, .members acc, s =>
    match skipWs s with
    | '"' :: r =>
      match parseStringBody (fuel + 1) r with
      | none => none
      | some (k, r2) =>
        match skipWs r2 with
        | ':' :: r3 =>
          match parseJ fuel .value r3 with
          | none => none
          | some (v, r4) =>
            match skipWs r4 with
            | ',' :: r5 => parseJ fuel (.members (acc ++ [(k, v)])) r5
            | '\x7d' :: r5 => some (.obj (acc ++ [(k, v)]), r5)
            | _ => none
        | _ => none
    | _ => none

/-- Model of parsing one complete JSON document: the whole input must be
consumed apart from trailing whitespace, as Go json.Unmarshal requires. -/
def jsonParse (msg : Bytes) : Option Json :=
  match parseJ (2 * msg.length + 8) .value msg with
  | none => none
  | some (v, r) => if skipWs r = [] then some v else none

/-- ASCII lower-casing, used for the case-insensitive key matching of Go
encoding/json struct decoding and of mapstructure. -/
def charLower (c : Char) : Char :=
  if 'A' ≤ c ∧ c ≤ 'Z' then Char.ofNat (c.toNat + 32) else c

/-- Case-insensitive key equality. -/
def keyEqCI (a b : Bytes) : Bool :=
  a.map charLower == b.map charLower

/-- Last member of a JSON object whose key matches case-insensitively
(later duplicate keys overwrite earlier ones in Go decoding). -/
def mapLookupCI (members : List (Bytes × Json)) (key : Bytes) : Option Json :=
  ((members.filter (fun kv => keyEqCI kv.1 key)).getLast?).map (fun kv => kv.2)

/-- Last member of a JSON object whose key matches exactly, the lookup
performed on a decoded Go map. -/
def mapLookupExact (members : List (Bytes × Json)) (key : Bytes) : Option Json :=
  ((members.filter (fun kv => kv.1 == key)).getLast?).map (fun kv => kv.2)

/-- Model of json.Unmarshal of one payload into `*SocketMessage`: a JSON
null leaves the pointer nil, a non-object is a decode error, and in an
object the key `m` must hold a string (or null / be absent, leaving the
zero value) while `p` may hold anything. -/
def decodeEnvelope : Json → Except Unit (Option SocketMessage)
  | .null => .ok none
  | .obj members =>
    let pv : Option Json :=
      match mapLookupCI members ("p".toList) with
      | some .null => none
      | v => v
    match mapLookupCI members ("m".toList) with
    | none => .ok (some ⟨[], pv⟩)
    | some .null => .ok (some ⟨[], pv⟩)
    | some (.str s) => .ok (some ⟨s, pv⟩)
    | some _ => .error ()
  | _ => .error ()

/-- Parse a payload and decode it as an envelope, the composition used at
the head of `parseJSON`. -/
def jsonUnmarshalSM (msg : Bytes) : Except Unit (Option SocketMessage) :=
  match jsonParse msg with
  | none => .error ()
  | some j => decodeEnvelope j

/-- Model of mapstructure decoding of one string-typed struct field: absent
or null input leaves the zero value; a non-string value is an error. -/
def decodeStringField (members : List (Bytes × Json)) (key : Bytes) : Except Unit Bytes :=
  match mapLookupCI members key with
  | none => .ok []
  | some .null => .ok []
  | some (.str s) => .ok s
  | some _ => .error ()

/-- Model of mapstructure decoding of one `*float64` struct field: absent or
null input leaves nil; a non-numeric value is an error. -/
def decodeNumPtrField (members : List (Bytes × Json)) (key : Bytes) : Except Unit (Option Dec) :=
  match mapLookupCI members key with
  | none => .ok none
  | some .null => .ok none
  | some (.num q) => .ok (some q)
  | some _ => .error ()

/-- Model of mapstructure decoding of a map into `QuoteData`. -/
def decodeQuoteData (members : List (Bytes × Json)) : Except Unit QuoteData := do
  let lp ← decodeNumPtrField members ("lp".toList)
  let vol ← decodeNumPtrField members ("volume".toList)
  let bid ← decodeNumPtrField members ("bid".toList)
  let ask ← decodeNumPtrField members ("ask".toList)
  pure ⟨lp, vol, bid, ask⟩

/-- Model of mapstructure decoding of a map into `QuoteMessage` (tags `n`,
`s`, `v`; the `v` field is a nullable pointer filled from a nested map). -/
def decodeQuoteMessage (members : List (Bytes × Json)) : Except Unit QuoteMessage := do
  let n ← decodeStringField members ("n".toList)
  let st ← decodeStringField members ("s".toList)
  let v ← match mapLookupCI members ("v".toList) with
    | none => Except.ok Option.none
    | some .null => Except.ok Option.none
    | some (.obj mm) => (decodeQuoteData mm).map Option.some
    | some _ => Except.error ()
  pure ⟨n, st, v⟩

/-- Modelled from the spec: the error-context tag constants are declared in
a repository file not present under `src/`; each is "a short context tag
identifying which phase failed".  Only their identity and the `send`
tag matter to the claims, so they are modelled as distinct strings. -/
def InitErrorContext : Bytes := "init".toList

/-- Modelled from the spec: context tag for a failed first read. -/
def ReadFirstMessageErrorContext : Bytes := "read first message".toList

/-- Modelled from the spec: context tag for a first message that does not decode. -/
def DecodeFirstMessageErrorContext : Bytes := "decode first message".toList

/-- Modelled from the spec: context tag for a first message without session context. -/
def FirstMessageWithoutSessionIdErrorContext : Bytes := "first message without session id".toList

/-- Modelled from the spec: context tag for a failed handshake send sequence. -/
def ConnectionSetupMessagesErrorContext : Bytes := "connection setup messages".toList

/-- Modelled from the spec: context tag for a failed outgoing write (the send phase). -/
def SendMessageErrorContext : Bytes := "send message".toList

/-- Modelled from the spec: context tag for a failed read in the receive loop. -/
def ReadMessageErrorContext : Bytes := "read message".toList

/-- Modelled from the spec: context tag for a failed keep-alive echo write. -/
def SendKeepAliveMessageErrorContext : Bytes := "send keep alive message".toList

/-- Modelled from the spec: context tag for a malformed length prefix. -/
def GetPayloadLengthErrorContext : Bytes := "get payload length".toList

/-- Modelled from the spec: context tag for a payload that fails JSON decoding. -/
def DecodeMessageErrorContext : Bytes := "decode message".toList

/-- Modelled from the spec: context tag for a server-signalled error message. -/
def DecodedMessageHasErrorPropertyErrorContext : Bytes := "decoded message has error property".toList

/-- Modelled from the spec: context tag for a qsd message without payload. -/
def DecodedMessageDoesNotIncludePayloadErrorContext : Bytes := "decoded message does not include payload".toList

/-- Modelled from the spec: context tag for a payload of the wrong shape. -/
def PayloadCantBeParsedErrorContext : Bytes := "payload cant be parsed".toList

/-- Modelled from the spec: context tag for a quote payload that mapstructure rejects. -/
def FinalPayloadCantBeParsedErrorContext : Bytes := "final payload cant be parsed".toList

/-- Modelled from the spec: context tag for a quote payload failing the status and shape checks. -/
def FinalPayloadHasMissingPropertiesErrorContext : Bytes := "final payload has missing properties".toList

/-- Separator the code inserts between a context tag and the offending raw data. -/
def ctxSep : Bytes := " - ".toList

/-- Modelled from the spec: `GetStringRepresentation` lives in a utility
file not present under `src/`; it renders a value to its canonical JSON
string, and on `QuoteData` two renderings coincide exactly when the field
contents coincide.  It is therefore modelled as the identity on `QuoteData`,
with equality of results standing for equality of the rendered strings. -/
def GetStringRepresentation (d : QuoteData) : QuoteData := d

/-- Callback invocations and transport writes observable by the caller.  An
error callback records whether the transport had already been closed when
the callback ran (`onError` closes the connection before invoking it). -/
inductive LoopEvent where
  | errCb (ctx : Bytes) (connClosedAtCall : Bool)
  | quoteCb (symbol : Bytes) (data : QuoteData)
  | echoWrite (msg : Bytes)
deriving DecidableEq, Repr

/-- Whether an event is an error-callback invocation. -/
def LoopEvent.isErr : LoopEvent → Bool
  | .errCb _ _ => true
  | _ => false

/-- Whether an event is a quote-callback invocation. -/
def LoopEvent.isQuote : LoopEvent → Bool
  | .quoteCb _ _ => true
  | _ => false

/-- Go strconv.Itoa restricted to naturals, fuel-bounded so the kernel can
evaluate it: decimal digits, no leading zeros, `"0"` for zero. -/
def ItoaNatAux : Nat → Nat → Bytes
  | 0, n => [Char.ofNat (48 + n % 10)]
  | fuel + 1, n =>
    if n < 10 then [Char.ofNat (48 + n)]
    else ItoaNatAux fuel (n / 10) ++ [Char.ofNat (48 + n % 10)]

/-- Decimal rendering of a natural number. -/
def ItoaNat (n : Nat) : Bytes := ItoaNatAux n n

/-- Go strconv.Itoa: decimal rendering of an integer. -/
def Itoa (n : Int) : Bytes :=
  if n < 0 then '-' :: ItoaNat (-n).toNat else ItoaNat n.toNat

/-- Digit-accumulating core of strconv.Atoi: consumes the whole input,
failing on the first non-digit. -/
def parseDigitsAux (acc : Nat) : Bytes → Option Nat
  | [] => some acc
  | c :: rest =>
    match digitVal c with
    | some d => parseDigitsAux (10 * acc + d) rest
    | none => none

/-- All-digits numeric parse requiring at least one digit. -/
def parseDigits : Bytes → Option Nat
  | [] => none
  | s => parseDigitsAux 0 s

/-- Largest value of the 64-bit Go int, the type of strconv.Atoi's result
and the upper bound of every Go slice length. -/
def maxInt64 : Nat := 9223372036854775807

/-- Go strconv.Atoi: optional sign followed by at least one digit and
nothing else, failing (ErrRange) when the value does not fit a 64-bit
int. -/
def Atoi (s : Bytes) : Except Unit Int :=
  match s with
  | [] => .error ()
  | c :: rest =>
    if c = '+' then
      match parseDigits rest with
      | some n => if n ≤ maxInt64 then .ok (n : Int) else .error ()
      | none => .error ()
    else if c = '-' then
      match parseDigits rest with
      | some n => if n ≤ maxInt64 + 1 then .ok (-(n : Int)) else .error ()
      | none => .error ()
    else
      match parseDigits (c :: rest) with
      | some n => if n ≤ maxInt64 then .ok (n : Int) else .error ()
      | none => .error ()

/-- Scan for the first `'~'`: returns the characters before it and the
input after it, or `none` when the scan runs off the end of the buffer
(which in the Go code is an out-of-range index panic). -/
def scanTilde : Bytes → Option (Bytes × Bytes)
  | [] => none
  | c :: rest =>
    if c = '~' then some ([], rest)
    else
      match scanTilde rest with
      | some (tok, r) => some (c :: tok, r)
      | none => none

/-- Outcome of `getPayloadLength`: the scan for the terminating `'~'` can
run out of the buffer (a Go panic), the token can fail strconv.Atoi (the
error return), or an integer is produced. -/
inductive LengthResult where
  | panicked
  | failed
  | ok (n : Int)
deriving DecidableEq, Repr

/-- getPayloadLength from socket.go: starting at index 3, accumulate
characters until a `'~'`, then parse them with strconv.Atoi. -/
def getPayloadLength (msg : Bytes) : LengthResult :=
  match scanTilde (msg.drop 3) with
  | none => .panicked
  | some (tok, _) =>
    match Atoi tok with
    | .ok n => .ok n
    | .error _ => .failed

/-- getPayloadStartingIndex from socket.go: scan from index 3 for the first
`'~'` and return the index three places after it; running off the end of
the buffer is a Go panic. -/
def getPayloadStartingIndex (msg : Bytes) : Except Unit Nat :=
  match scanTilde (msg.drop 3) with
  | none => .error ()
  | some (tok, _) => .ok (6 + tok.length)

/-- isKeepAliveMsg from socket.go: true when the byte at the payload
starting index is `'~'`; indexing past the end is a Go panic. -/
def isKeepAliveMsg (msg : Bytes) : Except Unit Bool :=
  match getPayloadStartingIndex msg with
  | .error _ => .error ()
  | .ok idx =>
    match msg.get? idx with
    | none => .error ()
    | some c => .ok (c = '~')

/-- Envelope framing as performed by sendSocketMessage: the literal bytes
`"~m~" ++ decimal byte length ++ "~m~" ++ payload`. -/
def mkFrame (payload : Bytes) : Bytes :=
  '~' :: 'm' :: '~' :: (ItoaNat payload.length ++ ('~' :: 'm' :: '~' :: payload))

/-- Result of running parseJSON on one payload: a Go panic (nil
dereference of the decoded message or failed type assertion on the second
payload element), a failure — carrying the error context when onError was
invoked, and `none` for the silently ignored non-qsd case — or a decoded
symbol and quote data. -/
inductive ParseJSONResult where
  | panicked
  | failed (report : Option Bytes)
  | ok (symbol : Bytes) (data : QuoteData)
deriving DecidableEq

/-- parseJSON from socket.go, lines 221-269, over one extracted payload. -/
def parseJSON (msg : Bytes) : ParseJSONResult :=
  match jsonUnmarshalSM msg with
  | .error _ => .failed (some (DecodeMessageErrorContext ++ ctxSep ++ msg))
  | .ok none => .panicked
  | .ok (some dm) =>
    if dm.message = "critical_error".toList ∨ dm.message = "error".toList then
      .failed (some DecodedMessageHasErrorPropertyErrorContext)
    else if ¬ dm.message = "qsd".toList then
      .failed none
    else
      match dm.payload with
      | none => .failed (some DecodedMessageDoesNotIncludePayloadErrorContext)
      | some (.arr [_, .obj mm]) =>
        (match decodeQuoteMessage mm with
         | .error _ => .failed (some (FinalPayloadCantBeParsedErrorContext ++ ctxSep ++ msg))
         | .ok qm =>
           if qm.status = "ok".toList ∧ ¬ qm.symbol = [] ∧ ¬ qm.data = none then
             .ok qm.symbol (qm.data.getD ⟨none, none, none, none⟩)
           else
             .failed (some FinalPayloadHasMissingPropertiesErrorContext))
      | some (.arr [_, _]) => .panicked
      | some _ => .failed (some PayloadCantBeParsedErrorContext)

/-- How the collection loop of parsePacket ended: buffer exhausted, a
length-prefix error (onError then return, skipping the dispatch loop), a
parseJSON failure (break, proceeding to the dispatch loop, with the
context when onError was invoked), or a Go panic. -/
inductive CollectStop where
  | exhausted
  | framingFailed
  | parseBroke (report : Option Bytes)
  | panicked
deriving DecidableEq

/-- Symbols and data collected by the first loop of parsePacket, in receive
order, together with how the loop stopped. -/
structure CollectResult where
  syms : List Bytes
  datas : List QuoteData
  stop : CollectStop
deriving DecidableEq

/-- First loop of parsePacket (socket.go lines 186-205): repeatedly read a
length prefix, slice out exactly that many payload bytes (an out-of-range
slice is a Go panic), run parseJSON, and accumulate the results.  The fuel
only bounds the recursion; any fuel exceeding the buffer length yields the
loop's exact behaviour. -/
def collectLoop : Nat → Bytes → CollectResult
  | 0, _ => ⟨[], [], .panicked⟩
  | fuel + 1, s =>
    match s with
    | [] => ⟨[], [], .exhausted⟩
    | _ :: _ =>
      match getPayloadLength s with
      | .panicked => ⟨[], [], .panicked⟩
      | .failed => ⟨[], [], .framingFailed⟩
      | .ok n =>
        let headerLength := 6 + (Itoa n).length
        if n < 0 ∨ s.length < headerLength + n.toNat then ⟨[], [], .panicked⟩
        else
          let payload := (s.drop headerLength).take n.toNat
          match parseJSON payload with
          | .panicked => ⟨[], [], .panicked⟩
          | .failed report => ⟨[], [], .parseBroke report⟩
          | .ok sym d =>
            let r := collectLoop fuel (s.drop (headerLength + n.toNat))
            ⟨sym :: r.syms, d :: r.datas, r.stop⟩

/-- Does some later collected element have the same string representation,
the inner loop of the dedup pass. -/
def hasLaterDup (d : QuoteData) (later : List QuoteData) : Bool :=
  later.any (fun d2 => decide (GetStringRepresentation d2 = GetStringRepresentation d))

/-- Second loop of parsePacket (socket.go lines 207-218): dispatch entry i
to the market-data callback unless a later entry has an identical string
representation of its quote data. -/
def dispatchLoop : List Bytes → List QuoteData → List LoopEvent
  | sym :: syms, d :: datas =>
    (if hasLaterDup d datas then [] else [.quoteCb sym d]) ++ dispatchLoop syms datas
  | _, _ => []

/-- Observable outcome of parsePacket: the callback invocations in order,
and whether the goroutine panicked. -/
structure PacketResult where
  events : List LoopEvent
  panicked : Bool
deriving DecidableEq, Repr

/-- parsePacket from socket.go, lines 182-219: collect, then dedup and
dispatch.  A framing error reports onError and returns before the dispatch
loop; a parseJSON failure breaks out and still dispatches what was
collected, reporting onError first when parseJSON did. -/
def parsePacket (packet : Bytes) : PacketResult :=
  let r := collectLoop (packet.length + 1) packet
  match r.stop with
  | .exhausted => ⟨dispatchLoop r.syms r.datas, false⟩
  | .framingFailed =>
    ⟨[.errCb (GetPayloadLengthErrorContext ++ ctxSep ++ packet) true], false⟩
  | .parseBroke (some ctx) => ⟨.errCb ctx true :: dispatchLoop r.syms r.datas, false⟩
  | .parseBroke none => ⟨dispatchLoop r.syms r.datas, false⟩
  | .panicked => ⟨[], true⟩

/-- Outcome of pure frame splitting. -/
inductive SplitResult where
  | panicked
  | failed
  | ok (payloads : List Bytes)
deriving DecidableEq

/-- Frame-splitting core: exactly the length-prefix scanning and slicing of
the parsePacket loop (socket.go lines 186-196), without the decoding
step — the codec operation the spec calls `SplitFrames`. -/
def splitFramesLoop : Nat → Bytes → SplitResult
  | 0, _ => .panicked
  | fuel + 1, s =>
    match s with
    | [] => .ok []
    | _ :: _ =>
      match getPayloadLength s with
      | .panicked => .panicked
      | .failed => .failed
      | .ok n =>
        let headerLength := 6 + (Itoa n).length
        if n < 0 ∨ s.length < headerLength + n.toNat then .panicked
        else
          match splitFramesLoop fuel (s.drop (headerLength + n.toNat)) with
          | .ok ps => .ok ((s.drop headerLength).take n.toNat :: ps)
          | r => r

/-- Frame splitting over a whole buffer. -/
def splitFrames (s : Bytes) : SplitResult :=
  splitFramesLoop (s.length + 1) s

/-- Result of one run of the receive loop: the observable events in order
and whether a handler goroutine panicked. -/
structure LoopResult where
  events : List LoopEvent
  panicked : Bool
deriving DecidableEq, Repr

/-- One transport event seen by the receive loop: a delivered message of a
given type, or a transport read failure (which in Go can hit a perfectly
open connection mid-stream). -/
inductive NetEvent where
  | msg (msgType : Nat) (bytes : Bytes)
  | readErr
deriving DecidableEq, Repr

/-- Receive loop of socket.go (connectionLoop, lines 147-180) under the
sequential schedule in which each spawned message handler runs to
completion before the next read.  The script lists the transport's read
outcomes; `echoOks` lists the outcomes of successive keep-alive echo
writes (a failed echo sets writeKeepAliveMsgError, the loop condition then
exits and onError reports it once); `connClosed` tracks whether `onError`
has closed the transport, in which case the next read fails and is
reported with the read context.  An exhausted script with an open
connection models the loop blocking on its next read. -/
def connectionLoopSeq : List NetEvent → List Bool → Bool → LoopResult
  | script, echoOks, connClosed =>
    if connClosed then ⟨[.errCb ReadMessageErrorContext true], false⟩
    else
      match script with
      | [] => ⟨[], false⟩
      | .readErr :: _ => ⟨[.errCb ReadMessageErrorContext true], false⟩
      | .msg msgType msg :: rest =>
        if ¬ msgType = 1 then connectionLoopSeq rest echoOks false
        else
          match isKeepAliveMsg msg with
          | .error _ => ⟨[], true⟩
          | .ok true =>
            if echoOks.headD true then
              let r := connectionLoopSeq rest echoOks.tail false
              ⟨.echoWrite msg :: r.events, r.panicked⟩
            else ⟨[.errCb SendKeepAliveMessageErrorContext true], false⟩
          | .ok false =>
            let pr := parsePacket msg
            if pr.panicked then ⟨pr.events, true⟩
            else
              let closed := pr.events.any LoopEvent.isErr
              let r := connectionLoopSeq rest echoOks closed
              ⟨pr.events ++ r.events, r.panicked⟩

/-- Receive loop started on an open connection over a transport that
delivers every scripted message and accepts every echo write. -/
def connectionLoopRun (script : List (Nat × Bytes)) : LoopResult :=
  connectionLoopSeq (script.map (fun p => NetEvent.msg p.1 p.2)) [] false

/-- Alphanumeric alphabet for session identifiers. -/
def alphanum : Bytes :=
  "abcdefghijklmnopqrstuvwxyzABCDEFGHIJKLMNOPQRSTUVWXYZ0123456789".toList

/-- Modelled from the spec: `GetRandomString` lives in a utility file not
present under `src/`; per the spec it yields the requested number of random
alphanumeric characters.  The random source is abstracted as a function
from position to an index into the alphabet. -/
def GetRandomString (source : Nat → Nat) (length : Nat) : Bytes :=
  (List.range length).map (fun i => alphanum.getD (source i % alphanum.length) 'a')

/-- generateSessionID from socket.go: the `qs_` prefix followed by twelve
random alphanumeric characters. -/
def generateSessionID (source : Nat → Nat) : Bytes :=
  "qs_".toList ++ GetRandomString source 12

/-- Decidable form of the pattern `qs_[A-Za-z0-9]{12}` (in the regex
notation of the spec) anchored at both ends. -/
def matchesSessionPattern (s : Bytes) : Bool :=
  s.take 3 == "qs_".toList && (s.drop 3).length == 12
    && (s.drop 3).all (fun c => c.isAlpha || c.isDigit)

/-- Outgoing setup command: message name and a payload of strings, the
shape `getSocketMessage` receives for the three handshake commands. -/
structure OutMsg where
  m : Bytes
  p : List Bytes
deriving DecidableEq, Repr

/-- Setup commands constructed by sendConnectionSetupMessages, in source
order. -/
def setupMessages (sid : Bytes) : List OutMsg :=
  [ ⟨"set_auth_token".toList, ["unauthorized_user_token".toList]⟩,
    ⟨"quote_create_session".toList, [sid]⟩,
    ⟨"quote_set_fields".toList,
      [sid, "lp".toList, "volume".toList, "bid".toList, "ask".toList]⟩ ]

/-- Sending loop of sendConnectionSetupMessages: each command is attempted
in order with the corresponding write outcome; the first failure stops the
sequence.  Returns the attempted commands and overall success. -/
def sendSeq : List Bool → List OutMsg → List OutMsg × Bool
  | _, [] => ([], true)
  | oks, msg :: rest =>
    if oks.headD true then
      let r := sendSeq oks.tail rest
      (msg :: r.1, r.2)
    else ([msg], false)

/-- Outcome of checkFirstReceivedMessage on the received bytes: Go panic
(marker scan or slice out of range), error return, or success. -/
inductive CheckResult where
  | panicked
  | failed
  | ok
deriving DecidableEq

/-- checkFirstReceivedMessage from socket.go, lines 87-112: slice off the
envelope header, decode the payload as a JSON map, and require a non-null
`session_id` member. -/
def checkFirstReceivedMessageM (msg : Bytes) : CheckResult :=
  match getPayloadStartingIndex msg with
  | .error _ => .panicked
  | .ok idx =>
    if msg.length < idx then .panicked
    else
      match jsonParse (msg.drop idx) with
      | none => .failed
      | some (.obj members) =>
        match mapLookupExact members ("session_id".toList) with
        | none => .failed
        | some .null => .failed
        | some _ => .ok
      | some .null => .failed
      | some _ => .failed

/-- Handshake tail of Init (socket.go lines 47-57): after the first
received message passes its check, generate the session identifier and run
the setup sequence.  Returns `none` when the check does not succeed. -/
def initHandshakeM (firstMsg : Bytes) (source : Nat → Nat) (oks : List Bool) :
    Option (Bytes × (List OutMsg × Bool)) :=
  match checkFirstReceivedMessageM firstMsg with
  | .ok =>
    let sid := generateSessionID source
    some (sid, sendSeq oks (setupMessages sid))
  | _ => none

/-- Observable outcome of sendSocketMessage: whether an error was returned
to the caller, whether the transport ended closed, and the callback
invocations. -/
structure SendOutcome where
  errReturned : Bool
  connClosed : Bool
  events : List LoopEvent
deriving DecidableEq

/-- sendSocketMessage from socket.go, lines 135-145, with the marshalled
JSON bytes of the command supplied by the external JSON encoder: frame the
bytes, write them, and on write failure invoke onError (closing the
connection first) with the send context and the framed payload, then
return the error. -/
def sendSocketMessageM (marshalled : Bytes) (writeOk : Bool) : SendOutcome :=
  if writeOk then ⟨false, false, []⟩
  else ⟨true, true, [.errCb (SendMessageErrorContext ++ ctxSep ++ mkFrame marshalled) true]⟩

/-- Subscription command sent by AddSymbol: quote_add_symbols with the
session identifier, the symbol, and the force-permission flags object. -/
def addSymbolMsg (sid symbol : Bytes) : SocketMessage :=
  ⟨"quote_add_symbols".toList,
    some (.arr [.str sid, .str symbol,
      .obj [("flags".toList, .arr [.str ("force_permission".toList)])]])⟩

/-- Unsubscription command sent by RemoveSymbol. -/
def removeSymbolMsg (sid symbol : Bytes) : SocketMessage :=
  ⟨"quote_remove_symbols".toList, some (.arr [.str sid, .str symbol])⟩

/-- AddSymbol from socket.go, lines 72-77, with the JSON encoder for the
command abstracted as `marshal`. -/
def AddSymbolM (marshal : SocketMessage → Bytes) (sid symbol : Bytes)
    (writeOk : Bool) : SendOutcome :=
  sendSocketMessageM (marshal (addSymbolMsg sid symbol)) writeOk

/-- RemoveSymbol from socket.go, lines 80-85. -/
def RemoveSymbolM (marshal : SocketMessage → Bytes) (sid symbol : Bytes)
    (writeOk : Bool) : SendOutcome :=
  sendSocketMessageM (marshal (removeSymbolMsg sid symbol)) writeOk

/-! Lemmas about the decimal length token: strconv.Atoi inverts
strconv.Itoa on naturals, and the rendered digits contain no marker
character. -/

theorem digit_char_facts (d : Nat) (hd : d < 10) :
    digitVal (Char.ofNat (48 + d)) = some d ∧ ¬ Char.ofNat (48 + d) = '~' ∧
      ¬ Char.ofNat (48 + d) = '+' ∧ ¬ Char.ofNat (48 + d) = '-' := by
  interval_cases d <;> exact ⟨by decide, by decide, by decide, by decide⟩

theorem ItoaNatAux_shape : ∀ fuel n, n ≤ fuel → ∀ c ∈ ItoaNatAux fuel n,
    ∃ d, d < 10 ∧ c = Char.ofNat (48 + d) := by
  intro fuel
  induction fuel with
  | zero =>
    intro n hn c hc
    have hn0 : n = 0 := by omega
    subst hn0
    simp only [ItoaNatAux, List.mem_singleton] at hc
    exact ⟨0, by omega, by simpa using hc⟩
  | succ f ih =>
    intro n hn c hc
    by_cases h10 : n < 10
    · simp only [ItoaNatAux, if_pos h10, List.mem_singleton] at hc
      exact ⟨n, h10, hc⟩
    · simp only [ItoaNatAux, if_neg h10, List.mem_append, List.mem_singleton] at hc
      rcases hc with h | h
      · have hdiv : n / 10 ≤ f := by
          have : n / 10 < n := Nat.div_lt_self (by omega) (by omega)
          omega
        exact ih (n / 10) hdiv c h
      · exact ⟨n % 10, Nat.mod_lt _ (by omega), h⟩

theorem ItoaNatAux_ne_nil (fuel n : Nat) : ¬ ItoaNatAux fuel n = [] := by
  cases fuel with
  | zero => simp [ItoaNatAux]
  | succ f => by_cases h10 : n < 10 <;> simp [ItoaNatAux, h10]

theorem parseDigitsAux_append (xs ys : Bytes) (acc : Nat) :
    parseDigitsAux acc (xs ++ ys) =
      match parseDigitsAux acc xs with
      | some a => parseDigitsAux a ys
      | none => none := by
  induction xs generalizing acc with
  | nil => simp [parseDigitsAux]
  | cons c rest ih =>
    simp only [List.cons_append, parseDigitsAux]
    cases hd : digitVal c with
    | some d => simp [ih]
    | none => simp

theorem parseDigitsAux_ItoaNatAux : ∀ fuel n acc, n ≤ fuel →
    parseDigitsAux acc (ItoaNatAux fuel n) =
      some (acc * 10 ^ (ItoaNatAux fuel n).length + n) := by
  intro fuel
  induction fuel with
  | zero =>
    intro n acc hn
    have hn0 : n = 0 := by omega
    subst hn0
    have h0 := (digit_char_facts 0 (by omega)).1
    simp only [ItoaNatAux, Nat.zero_mod, Nat.add_zero] at h0 ⊢
    simp [parseDigitsAux, h0]
    omega
  | succ f ih =>
    intro n acc hn
    by_cases h10 : n < 10
    · have hc := (digit_char_facts n h10).1
      simp only [ItoaNatAux, if_pos h10]
      simp [parseDigitsAux, hc]
      omega
    · have hdiv : n / 10 ≤ f := by
        have : n / 10 < n := Nat.div_lt_self (by omega) (by omega)
        omega
      have hm := (digit_char_facts (n % 10) (Nat.mod_lt _ (by omega))).1
      simp only [ItoaNatAux, if_neg h10]
      rw [parseDigitsAux_append, ih (n / 10) acc hdiv]
      simp only [parseDigitsAux, hm, List.length_append, List.length_singleton,
        pow_succ, ← mul_assoc]
      simp only [Option.some.injEq]
      generalize acc * 10 ^ (ItoaNatAux f (n / 10)).length = A
      omega

theorem Atoi_ItoaNat (n : Nat) (hn : n ≤ maxInt64) : Atoi (ItoaNat n) = .ok (n : Int) := by
  have hsh := ItoaNatAux_shape n n le_rfl
  cases hl : ItoaNatAux n n with
  | nil => exact absurd hl (ItoaNatAux_ne_nil n n)
  | cons c rest =>
    obtain ⟨d, hd, hcd⟩ := hsh c (by rw [hl]; exact List.mem_cons_self c rest)
    have hfacts := digit_char_facts d hd
    show Atoi (ItoaNatAux n n) = _
    rw [hl]
    subst hcd
    simp only [Atoi, if_neg hfacts.2.2.1, if_neg hfacts.2.2.2]
    have : parseDigits (Char.ofNat (48 + d) :: rest) =
        parseDigitsAux 0 (Char.ofNat (48 + d) :: rest) := rfl
    rw [this, ← hl, parseDigitsAux_ItoaNatAux n n 0 le_rfl]
    simp [hn]

theorem ItoaNat_no_tilde (n : Nat) : ∀ c ∈ ItoaNat n, ¬ c = '~' := by
  intro c hc
  obtain ⟨d, hd, rfl⟩ := ItoaNatAux_shape n n le_rfl c hc
  exact (digit_char_facts d hd).2.1

theorem Itoa_coe (n : Nat) : Itoa (n : Int) = ItoaNat n := by
  simp [Itoa, Int.toNat_ofNat]

/-! Lemmas about frame scanning: the length-token scan on a well-formed
frame recovers exactly the rendered length. -/

theorem scanTilde_append (tok rest : Bytes) (h : ∀ c ∈ tok, ¬ c = '~') :
    scanTilde (tok ++ '~' :: rest) = some (tok, rest) := by
  induction tok with
  | nil => simp [scanTilde]
  | cons c cs ih =>
    have hc : ¬ c = '~' := h c (List.mem_cons_self c cs)
    simp only [List.cons_append, scanTilde, if_neg hc, List.append_eq]
    rw [ih (fun x hx => h x (List.mem_cons_of_mem c hx))]

theorem mkFrame_append (p rest : Bytes) :
    mkFrame p ++ rest =
      '~' :: 'm' :: '~' :: (ItoaNat p.length ++ ('~' :: 'm' :: '~' :: (p ++ rest))) := by
  simp [mkFrame]

theorem getPayloadLength_mkFrame (p rest : Bytes) (hp : p.length ≤ maxInt64) :
    getPayloadLength (mkFrame p ++ rest) = .ok (p.length : Int) := by
  rw [mkFrame_append]
  show getPayloadLength ('~' :: 'm' :: '~' :: _) = _
  unfold getPayloadLength
  simp only [List.drop_succ_cons, List.drop_zero]
  rw [scanTilde_append _ _ (ItoaNat_no_tilde p.length)]
  simp [Atoi_ItoaNat p.length hp]

/-- Length of the frame header in front of the payload. -/
theorem mkFrame_length (p : Bytes) :
    (mkFrame p).length = 6 + (ItoaNat p.length).length + p.length := by
  simp [mkFrame]
  omega

theorem mkFrame_drop_header (p rest : Bytes) :
    (mkFrame p ++ rest).drop (6 + (ItoaNat p.length).length) = p ++ rest := by
  have hsplit : mkFrame p ++ rest =
      ('~' :: 'm' :: '~' :: (ItoaNat p.length ++ ['~', 'm', '~'])) ++ (p ++ rest) := by
    simp [mkFrame]
  rw [hsplit, List.drop_left']
  simp
  omega

theorem mkFrame_drop_all (p rest : Bytes) :
    (mkFrame p ++ rest).drop (6 + (ItoaNat p.length).length + p.length) = rest := by
  have hsplit : mkFrame p ++ rest = mkFrame p ++ rest := rfl
  rw [show (mkFrame p ++ rest : Bytes) =
      (('~' :: 'm' :: '~' :: (ItoaNat p.length ++ ['~', 'm', '~'])) ++ p) ++ rest by
    simp [mkFrame]]
  rw [List.drop_left']
  simp
  omega

/-! The collection loop is insensitive to the exact fuel as long as the
fuel exceeds the buffer length, and processing a well-formed leading frame
reduces to parseJSON on its payload followed by the rest of the buffer. -/

theorem Itoa_ne_nil (n : Int) : ¬ Itoa n = [] := by
  unfold Itoa
  by_cases h : n < 0 <;> simp [h, ItoaNatAux_ne_nil]
  exact ItoaNatAux_ne_nil _ _

theorem collectLoop_fuel : ∀ (L : Nat) (s : Bytes), s.length ≤ L →
    ∀ f1 f2, s.length < f1 → s.length < f2 → collectLoop f1 s = collectLoop f2 s := by
  intro L
  induction L with
  | zero =>
    intro s hs f1 f2 h1 h2
    have hnil : s = [] := List.length_eq_zero.mp (by omega)
    subst hnil
    match f1, f2, h1, h2 with
    | a + 1, b + 1, _, _ => rfl
  | succ L ih =>
    intro s hs f1 f2 h1 h2
    match f1, f2, h1, h2 with
    | a + 1, b + 1, h1, h2 =>
      cases s with
      | nil => rfl
      | cons c cs =>
        simp only [List.length_cons] at hs h1 h2
        simp only [collectLoop]
        cases hgl : getPayloadLength (c :: cs) with
        | panicked => rfl
        | failed => rfl
        | ok n =>
          simp only [List.length_cons]
          by_cases hb : n < 0 ∨ cs.length + 1 < 6 + (Itoa n).length + n.toNat
          · simp [hb]
          · simp only [hb, if_false]
            have hIto : ¬ (Itoa n).length = 0 := by
              simpa using Itoa_ne_nil n
            have hrec := ih ((c :: cs).drop (6 + (Itoa n).length + n.toNat))
              (by rw [List.length_drop]; simp only [List.length_cons]; omega)
              a b
              (by rw [List.length_drop]; simp only [List.length_cons]; omega)
              (by rw [List.length_drop]; simp only [List.length_cons]; omega)
            cases hpj : parseJSON ((c :: cs).drop (6 + (Itoa n).length) |>.take n.toNat) with
            | panicked => simp [hpj]
            | failed report => simp [hpj]
            | ok sym d => simp only [hpj, hrec]

theorem mkFrame_take_payload (p rest : Bytes) :
    ((mkFrame p ++ rest).drop (6 + (ItoaNat p.length).length)).take p.length = p := by
  rw [mkFrame_drop_header]
  exact List.take_left' rfl

theorem collectLoop_frame_step (p rest : Bytes) (fuel : Nat)
    (h : (mkFrame p ++ rest).length ≤ fuel) (hp : p.length ≤ maxInt64) :
    collectLoop (fuel + 1) (mkFrame p ++ rest) =
      match parseJSON p with
      | .panicked => ⟨[], [], .panicked⟩
      | .failed report => ⟨[], [], .parseBroke report⟩
      | .ok sym d =>
        let r := collectLoop (rest.length + 1) rest
        ⟨sym :: r.syms, d :: r.datas, r.stop⟩ := by
  have hlen : (mkFrame p ++ rest).length =
      6 + (ItoaNat p.length).length + p.length + rest.length := by
    rw [List.length_append, mkFrame_length]
  have hcons : mkFrame p ++ rest =
      '~' :: 'm' :: '~' :: (ItoaNat p.length ++ ('~' :: 'm' :: '~' :: (p ++ rest))) :=
    mkFrame_append p rest
  conv_lhs => rw [hcons]
  conv_lhs => simp only [collectLoop]
  rw [← hcons, getPayloadLength_mkFrame p rest hp]
  simp only [Itoa_coe, Int.toNat_ofNat]
  have hneg : ¬ ((p.length : Int) < 0 ∨
      6 + (ItoaNat p.length).length + p.length + rest.length
        < 6 + (ItoaNat p.length).length + p.length) := by
    push_neg
    exact ⟨Int.ofNat_nonneg p.length, by omega⟩
  simp only [hlen, hneg, if_false]
  rw [mkFrame_take_payload, mkFrame_drop_all]
  have hfuel1 : rest.length < fuel := by omega
  cases hpj : parseJSON p with
  | panicked => simp
  | failed report => simp
  | ok sym d =>
    simp only []
    rw [collectLoop_fuel rest.length rest le_rfl fuel (rest.length + 1) hfuel1 (by omega)]

/-- Concatenation of the frames of a list of payloads. -/
def framesOf : List Bytes → Bytes
  | [] => []
  | p :: ps => mkFrame p ++ framesOf ps

theorem collectLoop_single_frame (p : Bytes) (sym : Bytes) (d : QuoteData)
    (h : parseJSON p = .ok sym d) (hp : p.length ≤ maxInt64) :
    collectLoop ((mkFrame p).length + 1) (mkFrame p) = ⟨[sym], [d], .exhausted⟩ := by
  have hstep := collectLoop_frame_step p [] (mkFrame p).length (by simp) hp
  rw [List.append_nil] at hstep
  rw [hstep, h]
  simp [collectLoop]

theorem collectLoop_framesOf (ts : List (Bytes × Bytes × QuoteData)) :
    ∀ (rest : Bytes) (fuel : Nat),
      (framesOf (ts.map (fun t => t.1)) ++ rest).length ≤ fuel →
      (∀ t ∈ ts, parseJSON t.1 = .ok t.2.1 t.2.2) →
      (∀ t ∈ ts, t.1.length ≤ maxInt64) →
      collectLoop (fuel + 1) (framesOf (ts.map (fun t => t.1)) ++ rest) =
        ⟨ts.map (fun t => t.2.1) ++ (collectLoop (rest.length + 1) rest).syms,
         ts.map (fun t => t.2.2) ++ (collectLoop (rest.length + 1) rest).datas,
         (collectLoop (rest.length + 1) rest).stop⟩ := by
  induction ts with
  | nil =>
    intro rest fuel hf h hb
    simp only [List.map_nil, framesOf, List.nil_append] at hf ⊢
    rw [collectLoop_fuel rest.length rest le_rfl (fuel + 1) (rest.length + 1)
      (by omega) (by omega)]
  | cons t ts ih =>
    intro rest fuel hf h hb
    simp only [List.map_cons, framesOf, List.append_assoc] at hf ⊢
    have hf2 : (mkFrame t.1 ++ (framesOf (ts.map (fun t => t.1)) ++ rest)).length ≤ fuel := by
      simpa using hf
    rw [collectLoop_frame_step t.1 (framesOf (ts.map (fun t => t.1)) ++ rest) fuel hf2
      (hb t (List.mem_cons_self t ts))]
    rw [h t (List.mem_cons_self t ts)]
    simp only []
    rw [ih rest ((framesOf (ts.map (fun t => t.1)) ++ rest).length) le_rfl
      (fun x hx => h x (List.mem_cons_of_mem t hx))
      (fun x hx => hb x (List.mem_cons_of_mem t hx))]
    simp

/-- Claim C1 counterexample: within one raw receive, two qsd payloads that
carry the same quote data but different symbols (so the (symbol, quote-data)
pairs differ and the claim requires both to be dispatched) result in a
single dispatch, and it delivers the second symbol, not the first. -/
theorem claim1_counterexample :
    parseJSON ("\x7b\"m\":\"qsd\",\"p\":[\"s1\",\x7b\"n\":\"A\",\"s\":\"ok\",\"v\":\x7b\"lp\":1\x7d\x7d]\x7d".toList)
      = .ok ("A".toList) ⟨some ⟨1, 0⟩, none, none, none⟩ ∧
    parseJSON ("\x7b\"m\":\"qsd\",\"p\":[\"s1\",\x7b\"n\":\"B\",\"s\":\"ok\",\"v\":\x7b\"lp\":1\x7d\x7d]\x7d".toList)
      = .ok ("B".toList) ⟨some ⟨1, 0⟩, none, none, none⟩ ∧
    ¬ ("A".toList : Bytes) = "B".toList ∧
    parsePacket
        (mkFrame ("\x7b\"m\":\"qsd\",\"p\":[\"s1\",\x7b\"n\":\"A\",\"s\":\"ok\",\"v\":\x7b\"lp\":1\x7d\x7d]\x7d".toList)
          ++ mkFrame ("\x7b\"m\":\"qsd\",\"p\":[\"s1\",\x7b\"n\":\"B\",\"s\":\"ok\",\"v\":\x7b\"lp\":1\x7d\x7d]\x7d".toList)) =
      ⟨[.quoteCb ("B".toList) ⟨some ⟨1, 0⟩, none, none, none⟩], false⟩ :=
  ⟨by decide, by decide, by decide, by decide⟩

/-! Characterization of the dedup pass: an index is dispatched exactly when
no strictly later index carries the same quote-data content, in receive
order; the symbol takes no part in the grouping. -/

theorem getD_of_lt {α : Type} [Inhabited α] (l : List α) (j : Nat) (hj : j < l.length) :
    l.getD j default = l[j] := by
  rw [List.getD_eq_getElem?_getD, List.getElem?_eq_getElem hj]
  rfl

theorem hasLaterDup_iff (d : QuoteData) (ds : List QuoteData) :
    hasLaterDup d ds = true ↔ ∃ j, j < ds.length ∧ ds.getD j default = d := by
  unfold hasLaterDup GetStringRepresentation
  rw [List.any_eq_true]
  constructor
  · rintro ⟨x, hx, hdx⟩
    obtain ⟨j, hj, hxj⟩ := List.getElem_of_mem hx
    refine ⟨j, hj, ?_⟩
    rw [getD_of_lt ds j hj, hxj]
    exact of_decide_eq_true hdx
  · rintro ⟨j, hj, hdj⟩
    refine ⟨ds.getD j default, ?_, by rw [hdj]; exact decide_eq_true rfl⟩
    rw [getD_of_lt ds j hj]
    exact List.getElem_mem hj

theorem hasLaterDup_eq_decide (d : QuoteData) (ds : List QuoteData) :
    hasLaterDup d ds = decide (∃ j, j < ds.length ∧ ds.getD j default = d) := by
  cases hcase : hasLaterDup d ds with
  | true =>
    exact (decide_eq_true ((hasLaterDup_iff d ds).mp hcase)).symm
  | false =>
    have hE : ¬ ∃ j, j < ds.length ∧ ds.getD j default = d := fun hex => by
      have := (hasLaterDup_iff d ds).mpr hex
      rw [hcase] at this
      exact Bool.false_ne_true this
    exact (decide_eq_false hE).symm

theorem dispatchLoop_eq_filter : ∀ (syms : List Bytes) (datas : List QuoteData),
    syms.length = datas.length →
    dispatchLoop syms datas =
      ((List.range datas.length).filter (fun i =>
          decide (∀ j, j < datas.length →
            ¬ (i < j ∧ datas.getD j default = datas.getD i default)))).map
        (fun i => .quoteCb (syms.getD i default) (datas.getD i default)) := by
  intro syms
  induction syms with
  | nil =>
    intro datas h
    cases datas with
    | nil => rfl
    | cons d ds => simp at h
  | cons s ss ih =>
    intro datas h
    cases datas with
    | nil => simp at h
    | cons d ds =>
      simp only [List.length_cons] at h
      have hP0 : (decide (∀ j, j < ds.length + 1 →
          ¬ (0 < j ∧ (d :: ds).getD j default = (d :: ds).getD 0 default)))
          = ! hasLaterDup d ds := by
        rw [hasLaterDup_eq_decide, ← decide_not]
        apply decide_eq_decide.mpr
        constructor
        · rintro hall ⟨j, hj, hdj⟩
          exact hall (j + 1) (by omega)
            ⟨by omega, by simpa [List.getD_cons_succ, List.getD_cons_zero] using hdj⟩
        · rintro hnex j hjlt ⟨hj0, heq⟩
          cases j with
          | zero => omega
          | succ k =>
            simp only [List.getD_cons_succ, List.getD_cons_zero] at heq
            exact hnex ⟨k, by omega, heq⟩
      have hPsucc : (fun i => decide (∀ j, j < ds.length + 1 →
          ¬ (i + 1 < j ∧ (d :: ds).getD j default = (d :: ds).getD (i + 1) default)))
          = (fun i => decide (∀ j, j < ds.length →
          ¬ (i < j ∧ ds.getD j default = ds.getD i default))) := by
        funext i
        apply decide_eq_decide.mpr
        constructor
        · rintro hall j hjlt ⟨hij, heq⟩
          refine hall (j + 1) (by omega) ⟨by omega, ?_⟩
          simpa [List.getD_cons_succ] using heq
        · rintro hall j hjlt ⟨hij, heq⟩
          cases j with
          | zero => omega
          | succ k =>
            simp only [List.getD_cons_succ] at heq
            exact hall k (by omega) ⟨by omega, heq⟩
      have hF : (fun i => LoopEvent.quoteCb ((s :: ss).getD (i + 1) default)
          ((d :: ds).getD (i + 1) default))
          = (fun i => LoopEvent.quoteCb (ss.getD i default) (ds.getD i default)) := by
        funext i
        simp [List.getD_cons_succ]
      simp only [List.length_cons, List.range_succ_eq_map, List.filter_cons,
        List.filter_map, List.map_cons, List.map_map, dispatchLoop]
      rw [show ((fun i => decide (∀ j, j < ds.length + 1 →
          ¬ (i < j ∧ (d :: ds).getD j default = (d :: ds).getD i default))) ∘ Nat.succ)
          = (fun i => decide (∀ j, j < ds.length →
          ¬ (i < j ∧ ds.getD j default = ds.getD i default))) from hPsucc]
      rw [ih ds (by omega), hP0]
      cases hdup : hasLaterDup d ds with
      | true =>
        simp only [hdup, Bool.not_true, Bool.not_false, Bool.false_eq_true,
          eq_self_iff_true, if_true, if_false, List.map_map, List.map_cons,
          List.nil_append, List.singleton_append, List.getD_cons_zero]
        rw [show ((fun i => LoopEvent.quoteCb ((s :: ss).getD i default)
            ((d :: ds).getD i default)) ∘ Nat.succ)
            = (fun i => LoopEvent.quoteCb (ss.getD i default) (ds.getD i default)) from hF]
      | false =>
        simp only [hdup, Bool.not_true, Bool.not_false, Bool.false_eq_true,
          eq_self_iff_true, if_true, if_false, List.map_map, List.map_cons,
          List.nil_append, List.singleton_append, List.getD_cons_zero]
        rw [show ((fun i => LoopEvent.quoteCb ((s :: ss).getD i default)
            ((d :: ds).getD i default)) ∘ Nat.succ)
            = (fun i => LoopEvent.quoteCb (ss.getD i default) (ds.getD i default)) from hF]

/-- Claim C1 (amended): for every raw receive whose frames all decode to
quote updates, the dispatched callbacks are exactly the updates with no
strictly later update of identical quote-data content, in receive order:
duplicates are determined by the quote-data content alone — the symbol is
not compared — of each group of duplicates only the last occurrence in
receive order is dispatched, and updates whose quote data differ in any
field are each dispatched.  (The length bound records that Go byte-slice
lengths fit in a 64-bit int.) -/
theorem claim1_amended (ts : List (Bytes × Bytes × QuoteData))
    (hts : ∀ t ∈ ts, parseJSON t.1 = .ok t.2.1 t.2.2)
    (hb : ∀ t ∈ ts, t.1.length ≤ maxInt64) :
    parsePacket (framesOf (ts.map (fun t => t.1))) =
      ⟨((List.range ts.length).filter (fun i =>
          decide (∀ j, j < ts.length →
            ¬ (i < j ∧ (ts.map (fun t => t.2.2)).getD j default
              = (ts.map (fun t => t.2.2)).getD i default)))).map
        (fun i => .quoteCb ((ts.map (fun t => t.2.1)).getD i default)
          ((ts.map (fun t => t.2.2)).getD i default)),
       false⟩ := by
  have hcol := collectLoop_framesOf ts []
    (framesOf (ts.map (fun t : Bytes × Bytes × QuoteData => t.1)) ++ []).length
    le_rfl hts hb
  rw [show collectLoop (([] : Bytes).length + 1) ([] : Bytes) = ⟨[], [], .exhausted⟩
    from rfl] at hcol
  dsimp only at hcol
  simp only [List.append_nil] at hcol
  simp only [parsePacket, hcol]
  rw [dispatchLoop_eq_filter (ts.map (fun t => t.2.1)) (ts.map (fun t => t.2.2))
    (by simp)]
  simp [List.length_map]

/-- Claim C1 witness: three frames whose quote data form a duplicate group
of two followed by a distinct third; the last occurrence of the group and
the distinct update are dispatched, in order. -/
theorem claim1_witness :
    parseJSON ("\x7b\"m\":\"qsd\",\"p\":[\"s1\",\x7b\"n\":\"A\",\"s\":\"ok\",\"v\":\x7b\"lp\":1\x7d\x7d]\x7d".toList)
      = .ok ("A".toList) ⟨some ⟨1, 0⟩, none, none, none⟩ ∧
    parseJSON ("\x7b\"m\":\"qsd\",\"p\":[\"s1\",\x7b\"n\":\"B\",\"s\":\"ok\",\"v\":\x7b\"lp\":1\x7d\x7d]\x7d".toList)
      = .ok ("B".toList) ⟨some ⟨1, 0⟩, none, none, none⟩ ∧
    parseJSON ("\x7b\"m\":\"qsd\",\"p\":[\"s1\",\x7b\"n\":\"C\",\"s\":\"ok\",\"v\":\x7b\"ask\":2\x7d\x7d]\x7d".toList)
      = .ok ("C".toList) ⟨none, none, none, some ⟨2, 0⟩⟩ ∧
    parsePacket
        (framesOf
          ["\x7b\"m\":\"qsd\",\"p\":[\"s1\",\x7b\"n\":\"A\",\"s\":\"ok\",\"v\":\x7b\"lp\":1\x7d\x7d]\x7d".toList,
           "\x7b\"m\":\"qsd\",\"p\":[\"s1\",\x7b\"n\":\"B\",\"s\":\"ok\",\"v\":\x7b\"lp\":1\x7d\x7d]\x7d".toList,
           "\x7b\"m\":\"qsd\",\"p\":[\"s1\",\x7b\"n\":\"C\",\"s\":\"ok\",\"v\":\x7b\"ask\":2\x7d\x7d]\x7d".toList]) =
      ⟨[.quoteCb ("B".toList) ⟨some ⟨1, 0⟩, none, none, none⟩,
        .quoteCb ("C".toList) ⟨none, none, none, some ⟨2, 0⟩⟩], false⟩ := by
  refine ⟨by decide, by decide, by decide, ?_⟩
  have := claim1_amended
    [(("\x7b\"m\":\"qsd\",\"p\":[\"s1\",\x7b\"n\":\"A\",\"s\":\"ok\",\"v\":\x7b\"lp\":1\x7d\x7d]\x7d".toList : Bytes),
       (("A".toList : Bytes), (⟨some ⟨1, 0⟩, none, none, none⟩ : QuoteData))),
     (("\x7b\"m\":\"qsd\",\"p\":[\"s1\",\x7b\"n\":\"B\",\"s\":\"ok\",\"v\":\x7b\"lp\":1\x7d\x7d]\x7d".toList : Bytes),
       (("B".toList : Bytes), (⟨some ⟨1, 0⟩, none, none, none⟩ : QuoteData))),
     (("\x7b\"m\":\"qsd\",\"p\":[\"s1\",\x7b\"n\":\"C\",\"s\":\"ok\",\"v\":\x7b\"ask\":2\x7d\x7d]\x7d".toList : Bytes),
       (("C".toList : Bytes), (⟨none, none, none, some ⟨2, 0⟩⟩ : QuoteData)))]
    (by decide) (by decide)
  exact this.trans (by decide)

/-- Claim C2 counterexample: a buffer whose frame declares five payload
bytes while only two remain.  The claim requires a reported FramingError
and a normal return; instead the slice access is out of range — a Go
panic — and no error is reported. -/
theorem claim2_counterexample :
    parsePacket ("~m~5~m~ab".toList) = ⟨[], true⟩ := by decide

/-- Claim C2 (amended): when the length token of any frame of the buffer —
first or after any number of well-decoded frames — terminates but fails
strconv.Atoi (a non-numeric token, or a value outside the 64-bit int
range), parsePacket reports the framing error through onError exactly once
and returns normally, dispatching nothing: the quote updates already
collected from the earlier frames of that receive are silently discarded.
A token that parses to a negative in-range integer, a token whose scan
runs off the buffer, or a declared length exceeding the remaining bytes
instead leads to an out-of-range access (a runtime panic), not a reported
FramingError. -/
theorem claim2_amended (ts : List (Bytes × Bytes × QuoteData)) (bad : Bytes)
    (hts : ∀ t ∈ ts, parseJSON t.1 = .ok t.2.1 t.2.2)
    (hb : ∀ t ∈ ts, t.1.length ≤ maxInt64)
    (hbad : getPayloadLength bad = .failed)
    (hne : ¬ bad = []) :
    parsePacket (framesOf (ts.map (fun t => t.1)) ++ bad) =
      ⟨[.errCb (GetPayloadLengthErrorContext ++ ctxSep
          ++ (framesOf (ts.map (fun t => t.1)) ++ bad)) true], false⟩ := by
  have hbadloop : collectLoop (bad.length + 1) bad = ⟨[], [], .framingFailed⟩ := by
    cases bad with
    | nil => exact absurd rfl hne
    | cons c cs => simp only [List.length_cons, collectLoop, hbad]
  simp only [parsePacket]
  rw [collectLoop_framesOf ts bad _ le_rfl hts hb, hbadloop]

/-- Claim C2 witness: a valid quote frame followed by a frame whose length
token exceeds the int64 range is reported as one framing error, the call
returns normally, and the collected quote update is discarded. -/
theorem claim2_witness :
    getPayloadLength ("~m~99999999999999999999~m~x".toList) = .failed ∧
    parsePacket
        (framesOf ["\x7b\"m\":\"qsd\",\"p\":[\"s1\",\x7b\"n\":\"A\",\"s\":\"ok\",\"v\":\x7b\"lp\":1\x7d\x7d]\x7d".toList]
          ++ "~m~99999999999999999999~m~x".toList) =
      ⟨[.errCb (GetPayloadLengthErrorContext ++ ctxSep
          ++ (framesOf ["\x7b\"m\":\"qsd\",\"p\":[\"s1\",\x7b\"n\":\"A\",\"s\":\"ok\",\"v\":\x7b\"lp\":1\x7d\x7d]\x7d".toList]
            ++ "~m~99999999999999999999~m~x".toList)) true], false⟩ := by
  refine ⟨by decide, ?_⟩
  have := claim2_amended
    [(("\x7b\"m\":\"qsd\",\"p\":[\"s1\",\x7b\"n\":\"A\",\"s\":\"ok\",\"v\":\x7b\"lp\":1\x7d\x7d]\x7d".toList : Bytes),
       (("A".toList : Bytes), (⟨some ⟨1, 0⟩, none, none, none⟩ : QuoteData)))]
    ("~m~99999999999999999999~m~x".toList)
    (by decide) (by decide) (by decide) (by decide)
  exact this.trans (by decide)

/-- Claim C3 counterexample: a well-formed non-qsd payload followed by a
well-formed qsd payload in the same receive.  The claim requires the later
payload to still be decoded and dispatched; instead parsing breaks at the
non-qsd payload and nothing at all is dispatched. -/
theorem claim3_counterexample :
    parseJSON ("\x7b\"m\":\"quote_completed\",\"p\":[\"x\"]\x7d".toList) = .failed none ∧
    parseJSON ("\x7b\"m\":\"qsd\",\"p\":[\"s1\",\x7b\"n\":\"C\",\"s\":\"ok\",\"v\":\x7b\"lp\":7\x7d\x7d]\x7d".toList)
      = .ok ("C".toList) ⟨some ⟨7, 0⟩, none, none, none⟩ ∧
    parsePacket
        (mkFrame ("\x7b\"m\":\"quote_completed\",\"p\":[\"x\"]\x7d".toList)
          ++ mkFrame ("\x7b\"m\":\"qsd\",\"p\":[\"s1\",\x7b\"n\":\"C\",\"s\":\"ok\",\"v\":\x7b\"lp\":7\x7d\x7d]\x7d".toList)) =
      ⟨[], false⟩ :=
  ⟨by decide, by decide, by decide⟩

/-- Claim C3 (amended): a well-formed payload whose message name is not
`qsd` is silently ignored — no error is reported to the caller for it — but
it stops the processing of the receive: the remaining payloads are not
decoded, and nothing collected so far is lost only because payloads before
it are still dispatched (see the partial-dispatch property).  With the
non-qsd payload first, the whole receive produces no callback at all,
whatever follows it. -/
theorem claim3_amended (p rest : Bytes) (h : parseJSON p = .failed none)
    (hp : p.length ≤ maxInt64) :
    parsePacket (mkFrame p ++ rest) = ⟨[], false⟩ := by
  simp only [parsePacket]
  rw [collectLoop_frame_step p rest _ le_rfl hp, h]
  simp [dispatchLoop]

/-- Claim C3 witness: a non-qsd control acknowledgement followed by a valid
quote payload yields no callbacks. -/
theorem claim3_witness :
    parseJSON ("\x7b\"m\":\"quote_completed\",\"p\":[\"y\"]\x7d".toList) = .failed none ∧
    parsePacket
        (mkFrame ("\x7b\"m\":\"quote_completed\",\"p\":[\"y\"]\x7d".toList)
          ++ mkFrame ("\x7b\"m\":\"qsd\",\"p\":[\"s1\",\x7b\"n\":\"D\",\"s\":\"ok\",\"v\":\x7b\"lp\":8\x7d\x7d]\x7d".toList)) =
      ⟨[], false⟩ :=
  ⟨by decide,
    claim3_amended ("\x7b\"m\":\"quote_completed\",\"p\":[\"y\"]\x7d".toList)
      (mkFrame ("\x7b\"m\":\"qsd\",\"p\":[\"s1\",\x7b\"n\":\"D\",\"s\":\"ok\",\"v\":\x7b\"lp\":8\x7d\x7d]\x7d".toList))
      (by decide) (by decide)⟩

/-- Claim C9: if a later payload of the receive fails quote decoding, the
remaining payloads are not processed, but the quote updates decoded from
the payloads before the failure are still dispatched (after the per-receive
dedup), preceded by the error report when the failure invoked onError. -/
theorem claim9_partial_dispatch (ts : List (Bytes × Bytes × QuoteData))
    (q : Bytes) (rep : Option Bytes) (rest : Bytes)
    (hts : ∀ t ∈ ts, parseJSON t.1 = .ok t.2.1 t.2.2)
    (hb : ∀ t ∈ ts, t.1.length ≤ maxInt64)
    (hq : parseJSON q = .failed rep)
    (hqb : q.length ≤ maxInt64) :
    parsePacket (framesOf (ts.map (fun t => t.1)) ++ (mkFrame q ++ rest)) =
      ⟨(match rep with
         | some ctx => [LoopEvent.errCb ctx true]
         | none => []) ++
        dispatchLoop (ts.map (fun t => t.2.1)) (ts.map (fun t => t.2.2)), false⟩ := by
  simp only [parsePacket]
  rw [collectLoop_framesOf ts (mkFrame q ++ rest) _ le_rfl hts hb]
  rw [collectLoop_frame_step q rest _ le_rfl hqb]
  simp only [hq]
  cases rep <;> simp

/-- Claim C9 witness: a valid quote payload, then a non-qsd payload, then
another valid quote payload — only the first is dispatched, and no error is
reported for the silent break. -/
theorem claim9_witness :
    (∀ t ∈ [(("\x7b\"m\":\"qsd\",\"p\":[\"s1\",\x7b\"n\":\"A\",\"s\":\"ok\",\"v\":\x7b\"lp\":1\x7d\x7d]\x7d".toList : Bytes),
              (("A".toList : Bytes), (⟨some ⟨1, 0⟩, none, none, none⟩ : QuoteData)))],
      parseJSON t.1 = .ok t.2.1 t.2.2) ∧
    parseJSON ("\x7b\"m\":\"quote_completed\",\"p\":[\"x\"]\x7d".toList) = .failed none ∧
    parsePacket
        (framesOf ["\x7b\"m\":\"qsd\",\"p\":[\"s1\",\x7b\"n\":\"A\",\"s\":\"ok\",\"v\":\x7b\"lp\":1\x7d\x7d]\x7d".toList]
          ++ (mkFrame ("\x7b\"m\":\"quote_completed\",\"p\":[\"x\"]\x7d".toList)
            ++ mkFrame ("\x7b\"m\":\"qsd\",\"p\":[\"s1\",\x7b\"n\":\"B\",\"s\":\"ok\",\"v\":\x7b\"lp\":2\x7d\x7d]\x7d".toList))) =
      ⟨[.quoteCb ("A".toList) ⟨some ⟨1, 0⟩, none, none, none⟩], false⟩ := by
  refine ⟨by decide, by decide, ?_⟩
  have := claim9_partial_dispatch
    [(("\x7b\"m\":\"qsd\",\"p\":[\"s1\",\x7b\"n\":\"A\",\"s\":\"ok\",\"v\":\x7b\"lp\":1\x7d\x7d]\x7d".toList : Bytes),
       (("A".toList : Bytes), (⟨some ⟨1, 0⟩, none, none, none⟩ : QuoteData)))]
    ("\x7b\"m\":\"quote_completed\",\"p\":[\"x\"]\x7d".toList) none
    (mkFrame ("\x7b\"m\":\"qsd\",\"p\":[\"s1\",\x7b\"n\":\"B\",\"s\":\"ok\",\"v\":\x7b\"lp\":2\x7d\x7d]\x7d".toList))
    (by decide) (by decide) (by decide) (by decide)
  exact this.trans (by decide)

/-! Lemmas for the error-propagation claims: dispatch events are always
quote callbacks, and every error callback of the engine runs with the
transport already closed. -/

theorem dispatchLoop_all_quote : ∀ (syms : List Bytes) (datas : List QuoteData)
    (e : LoopEvent), e ∈ dispatchLoop syms datas → e.isQuote = true := by
  intro syms
  induction syms with
  | nil =>
    intro datas e he
    cases datas <;> simp [dispatchLoop] at he
  | cons s ss ih =>
    intro datas e he
    cases datas with
    | nil => simp [dispatchLoop] at he
    | cons d ds =>
      simp only [dispatchLoop, List.mem_append] at he
      rcases he with h | h
      · by_cases hdup : hasLaterDup d ds = true
        · simp [hdup] at h
        · simp only [hdup, Bool.false_eq_true, if_false, List.mem_singleton] at h
          subst h
          rfl
      · exact ih ds e h

theorem parsePacket_err_closed (packet : Bytes) (e : LoopEvent)
    (he : e ∈ (parsePacket packet).events) :
    ∀ ctx b, e = .errCb ctx b → b = true := by
  intro ctx b heq
  subst heq
  simp only [parsePacket] at he
  cases hstop : (collectLoop (packet.length + 1) packet).stop with
  | exhausted =>
    rw [hstop] at he
    have := dispatchLoop_all_quote _ _ _ he
    simp [LoopEvent.isQuote] at this
  | framingFailed =>
    rw [hstop] at he
    simp only [List.mem_singleton, LoopEvent.errCb.injEq] at he
    exact he.2
  | parseBroke report =>
    rw [hstop] at he
    cases report with
    | some ctx2 =>
      simp only [List.mem_cons, LoopEvent.errCb.injEq] at he
      rcases he with h | h
      · exact h.2
      · have := dispatchLoop_all_quote _ _ _ h
        simp [LoopEvent.isQuote] at this
    | none =>
      have := dispatchLoop_all_quote _ _ _ he
      simp [LoopEvent.isQuote] at this
  | panicked =>
    rw [hstop] at he
    simp at he

theorem connectionLoop_err_closed : ∀ (script : List NetEvent) (echoOks : List Bool)
    (closed : Bool) (e : LoopEvent),
    e ∈ (connectionLoopSeq script echoOks closed).events →
    ∀ ctx b, e = .errCb ctx b → b = true := by
  intro script
  induction script with
  | nil =>
    intro echoOks closed e he ctx b heq
    subst heq
    cases closed with
    | false => simp [connectionLoopSeq] at he
    | true =>
      simp only [connectionLoopSeq, if_true] at he
      simp only [List.mem_singleton, LoopEvent.errCb.injEq] at he
      exact he.2
  | cons hd rest ih =>
    intro echoOks closed e he ctx b heq
    cases closed with
    | true =>
      subst heq
      rw [connectionLoopSeq.eq_def] at he
      simp only [if_true, List.mem_singleton, LoopEvent.errCb.injEq] at he
      exact he.2
    | false =>
      cases hd with
      | readErr =>
        subst heq
        rw [connectionLoopSeq] at he
        simp at he
        exact he.2
      | msg mt msg =>
        rw [connectionLoopSeq] at he
        by_cases hmt : mt = 1
        · subst hmt
          cases hka : isKeepAliveMsg msg with
          | error u => simp [hka] at he
          | ok tv =>
            cases tv with
            | true =>
              cases hw : echoOks.head?.getD true with
              | true =>
                simp [hka, hw] at he
                rcases he with h | h
                · subst heq
                  simp at h
                · exact ih echoOks.tail false e h ctx b heq
              | false =>
                subst heq
                simp [hka, hw] at he
                exact he.2
            | false =>
              cases hp : (parsePacket msg).panicked with
              | true =>
                simp [hka, hp] at he
                exact parsePacket_err_closed msg e he ctx b heq
              | false =>
                simp [hka, hp] at he
                rcases he with h | h
                · exact parsePacket_err_closed msg e h ctx b heq
                · exact ih echoOks _ e h ctx b heq
        · simp [hmt] at he
          exact ih echoOks false e he ctx b heq

/-- Claim C4 counterexample: a single connection failure — one payload that
fails JSON decoding — produces two onError invocations, not one: the
decode report, and then the read failure caused by the transport having
been closed, reported again by the loop. -/
theorem claim4_counterexample :
    connectionLoopRun [(1, "~m~1~m~0".toList)] =
      ⟨[.errCb (DecodeMessageErrorContext ++ ctxSep ++ ("0".toList)) true,
        .errCb ReadMessageErrorContext true], false⟩ ∧
    ((connectionLoopRun [(1, "~m~1~m~0".toList)]).events.filter LoopEvent.isErr).length
      = 2 :=
  ⟨by decide, by decide⟩

/-- Claim C4 (amended): every connection-fatal condition — a transport read
error (mid-stream on an open connection or after a handler closed it), a
framing, decode, payload or server error reported by a packet handler, or
a failed keep-alive echo write — closes the transport before its onError
callback is invoked: every error callback of any receive-loop run, over
any read script, any echo-write outcomes and either starting connection
state, observes the transport closed.  But a single connection failure is
not reported exactly once overall: a fatal decode error is reported by the
handler and the subsequent read from the closed transport is reported
again by the loop. -/
theorem claim4_amended (script : List NetEvent) (echoOks : List Bool)
    (closed : Bool) (e : LoopEvent)
    (he : e ∈ (connectionLoopSeq script echoOks closed).events) (ctx : Bytes) (b : Bool)
    (heq : e = .errCb ctx b) : b = true :=
  connectionLoop_err_closed script echoOks closed e he ctx b heq

/-- Claim C4 witness: the failed-keep-alive-echo callback of a concrete run
observes the transport closed. -/
theorem claim4_witness :
    (LoopEvent.errCb SendKeepAliveMessageErrorContext true)
        ∈ (connectionLoopSeq [.msg 1 ("~m~4~m~~h~1".toList)] [false] false).events ∧
      (true : Bool) = true :=
  ⟨by decide,
    claim4_amended [.msg 1 ("~m~4~m~~h~1".toList)] [false] false
      (.errCb SendKeepAliveMessageErrorContext true)
      (by decide) SendKeepAliveMessageErrorContext true rfl⟩

/-! Frame splitting of a single encoded envelope. -/

theorem splitFramesLoop_nil (fuel : Nat) (h : ¬ fuel = 0) :
    splitFramesLoop fuel [] = .ok [] := by
  cases fuel with
  | zero => exact absurd rfl h
  | succ f => rfl

theorem splitFramesLoop_frame_step (p rest : Bytes) (fuel : Nat)
    (hp : p.length ≤ maxInt64) :
    splitFramesLoop (fuel + 1) (mkFrame p ++ rest) =
      match splitFramesLoop fuel (rest) with
      | .ok ps => .ok (p :: ps)
      | r => r := by
  have hlen : (mkFrame p ++ rest).length =
      6 + (ItoaNat p.length).length + p.length + rest.length := by
    rw [List.length_append, mkFrame_length]
  have hcons : mkFrame p ++ rest =
      '~' :: 'm' :: '~' :: (ItoaNat p.length ++ ('~' :: 'm' :: '~' :: (p ++ rest))) :=
    mkFrame_append p rest
  conv_lhs => rw [hcons]
  conv_lhs => simp only [splitFramesLoop]
  rw [← hcons, getPayloadLength_mkFrame p rest hp]
  simp only [Itoa_coe, Int.toNat_ofNat]
  have hneg : ¬ ((p.length : Int) < 0 ∨
      6 + (ItoaNat p.length).length + p.length + rest.length
        < 6 + (ItoaNat p.length).length + p.length) := by
    push_neg
    exact ⟨Int.ofNat_nonneg p.length, by omega⟩
  simp only [hlen, hneg, if_false]
  rw [mkFrame_take_payload, mkFrame_drop_all]

theorem splitFrames_mkFrame (p : Bytes) (hp : p.length ≤ maxInt64) :
    splitFrames (mkFrame p) = .ok [p] := by
  have h := splitFramesLoop_frame_step p [] (mkFrame p ++ []).length hp
  rw [List.append_nil] at h
  unfold splitFrames
  rw [h, splitFramesLoop_nil (mkFrame p).length (by rw [mkFrame_length]; omega)]

/-- Claim C5: for an envelope whose JSON encoding is `jsonBytes` (the JSON
codec is the external collaborator; its output is taken as given, together
with the fact that it decodes back to the envelope), the encoder emits
exactly `"~m~" ++ decimal byte length ++ "~m~" ++ jsonBytes`, and splitting
that encoded frame recovers exactly one payload, byte-identical to
`jsonBytes`, which decodes back to the envelope. -/
theorem claim5_roundtrip (jsonBytes : Bytes) (msg : SocketMessage)
    (h : jsonUnmarshalSM jsonBytes = .ok (some msg))
    (hb : jsonBytes.length ≤ maxInt64) :
    mkFrame jsonBytes =
      '~' :: 'm' :: '~' :: (ItoaNat jsonBytes.length ++ ('~' :: 'm' :: '~' :: jsonBytes)) ∧
    splitFrames (mkFrame jsonBytes) = .ok [jsonBytes] ∧
    jsonUnmarshalSM jsonBytes = .ok (some msg) :=
  ⟨rfl, splitFrames_mkFrame jsonBytes hb, h⟩

/-- Claim C5 witness: a concrete envelope round-trips through framing. -/
theorem claim5_witness :
    jsonUnmarshalSM ("\x7b\"m\":\"hi\",\"p\":[]\x7d".toList)
      = .ok (some ⟨"hi".toList, some (.arr [])⟩) ∧
    splitFrames (mkFrame ("\x7b\"m\":\"hi\",\"p\":[]\x7d".toList))
      = .ok ["\x7b\"m\":\"hi\",\"p\":[]\x7d".toList] :=
  ⟨rfl,
    (claim5_roundtrip ("\x7b\"m\":\"hi\",\"p\":[]\x7d".toList)
      ⟨"hi".toList, some (.arr [])⟩ rfl (by decide)).2.1⟩

/-! Handshake: the generated identifier matches the required pattern and
the three setup commands go out in order, aborting at the first failure. -/

theorem alphanum_getD_alnum (k : Nat) :
    ((alphanum.getD (k % alphanum.length) 'a').isAlpha
      || (alphanum.getD (k % alphanum.length) 'a').isDigit) = true := by
  have hlen : alphanum.length = 62 := by decide
  have hm : k % alphanum.length < alphanum.length := Nat.mod_lt _ (by omega)
  rw [List.getD_eq_getElem?_getD, List.getElem?_eq_getElem hm]
  have hmem : alphanum[k % alphanum.length] ∈ alphanum := List.getElem_mem hm
  have hall : alphanum.all (fun c => c.isAlpha || c.isDigit) = true := by decide
  exact List.all_eq_true.mp hall _ hmem

theorem matchesSessionPattern_generate (source : Nat → Nat) :
    matchesSessionPattern (generateSessionID source) = true := by
  unfold generateSessionID matchesSessionPattern GetRandomString
  have h1 : (("qs_".toList : Bytes)
      ++ (List.range 12).map (fun i => alphanum.getD (source i % alphanum.length) 'a')).take 3
      = "qs_".toList := List.take_left' (by decide)
  have h2 : (("qs_".toList : Bytes)
      ++ (List.range 12).map (fun i => alphanum.getD (source i % alphanum.length) 'a')).drop 3
      = (List.range 12).map (fun i => alphanum.getD (source i % alphanum.length) 'a') :=
    List.drop_left' (by decide)
  rw [h1, h2]
  simp only [List.length_map, List.length_range, beq_self_eq_true, Bool.and_true,
    Bool.true_and, Bool.and_eq_true, List.all_eq_true]
  intro c hc
  obtain ⟨i, hi, rfl⟩ := List.mem_map.mp hc
  exact alphanum_getD_alnum (source i)

/-- Claim C6: once the first received message passes its check, the
handshake generates a session identifier matching `qs_` followed by twelve
alphanumeric characters, and attempts exactly the three setup commands
set_auth_token (with the anonymous token), quote_create_session (with the
identifier) and quote_set_fields (with the identifier and the fields lp,
volume, bid, ask), strictly in this order; the first write failure aborts
the remainder of the sequence. -/
theorem claim6_handshake (firstMsg : Bytes) (source : Nat → Nat) (o1 o2 o3 : Bool)
    (h : checkFirstReceivedMessageM firstMsg = .ok) :
    matchesSessionPattern (generateSessionID source) = true ∧
    setupMessages (generateSessionID source) =
      [⟨"set_auth_token".toList, ["unauthorized_user_token".toList]⟩,
       ⟨"quote_create_session".toList, [generateSessionID source]⟩,
       ⟨"quote_set_fields".toList,
        [generateSessionID source, "lp".toList, "volume".toList,
         "bid".toList, "ask".toList]⟩] ∧
    initHandshakeM firstMsg source [o1, o2, o3] =
      some (generateSessionID source,
        ((setupMessages (generateSessionID source)).take
          (if o1 then (if o2 then 3 else 2) else 1),
         o1 && o2 && o3)) := by
  refine ⟨matchesSessionPattern_generate source, rfl, ?_⟩
  unfold initHandshakeM
  rw [h]
  cases o1 <;> cases o2 <;> cases o3 <;> rfl

/-- Claim C6 witness: a concrete handshake response with a session_id and a
failure on the second write attempts only the first two commands. -/
theorem claim6_witness :
    checkFirstReceivedMessageM ("~m~20~m~\x7b\"session_id\":\"abc\"\x7d".toList) = .ok ∧
    initHandshakeM ("~m~20~m~\x7b\"session_id\":\"abc\"\x7d".toList)
        (fun _ => 0) [true, false, true] =
      some (generateSessionID (fun _ => 0),
        ((setupMessages (generateSessionID (fun _ => 0))).take 2, false)) :=
  ⟨by decide,
    (claim6_handshake ("~m~20~m~\x7b\"session_id\":\"abc\"\x7d".toList)
      (fun _ => 0) true false true (by decide)).2.2⟩

/-- Claim C7: a received text message classified as a heartbeat — the byte
at the payload starting index is `'~'` — is echoed back over the transport
as the exact same bytes, and contributes nothing else to the run: it is
never handed to the frame splitter or the quote decoder. -/
theorem claim7_heartbeat (msg : Bytes) (rest : List (Nat × Bytes))
    (h : isKeepAliveMsg msg = .ok true) :
    connectionLoopRun ((1, msg) :: rest) =
      ⟨.echoWrite msg :: (connectionLoopRun rest).events,
        (connectionLoopRun rest).panicked⟩ := by
  simp only [connectionLoopRun, List.map_cons]
  conv_lhs => rw [connectionLoopSeq]
  simp [h]

/-- Claim C7 witness: the standard heartbeat frame is echoed verbatim. -/
theorem claim7_witness :
    isKeepAliveMsg ("~m~4~m~~h~1".toList) = .ok true ∧
    connectionLoopRun [(1, "~m~4~m~~h~1".toList)] =
      ⟨[.echoWrite ("~m~4~m~~h~1".toList)], false⟩ :=
  ⟨rfl,
    (claim7_heartbeat ("~m~4~m~~h~1".toList) [] rfl).trans (by decide)⟩

/-- Claim C8 counterexample: the raw receive of the spec scenario declares
a payload length of 61, but the JSON payload following the header is 68
bytes; the engine slices exactly 61 bytes, the truncated JSON fails to
decode, and no onQuote call is made at all — an error is reported
instead. -/
theorem claim8_counterexample :
    ((parsePacket ("~m~61~m~\x7b\"m\":\"qsd\",\"p\":[\"s1\",\x7b\"n\":\"OANDA:EURUSD\",\"s\":\"ok\",\"v\":\x7b\"lp\":1.23\x7d\x7d]\x7d".toList)).events.filter
        LoopEvent.isQuote = []) ∧
    ((parsePacket ("~m~61~m~\x7b\"m\":\"qsd\",\"p\":[\"s1\",\x7b\"n\":\"OANDA:EURUSD\",\"s\":\"ok\",\"v\":\x7b\"lp\":1.23\x7d\x7d]\x7d".toList)).events.filter
        LoopEvent.isErr).length = 1 ∧
    ("\x7b\"m\":\"qsd\",\"p\":[\"s1\",\x7b\"n\":\"OANDA:EURUSD\",\"s\":\"ok\",\"v\":\x7b\"lp\":1.23\x7d\x7d]\x7d".toList : Bytes).length = 68 :=
  ⟨by decide, by decide, by decide⟩

/-- Claim C8 (amended): with the length token equal to the payload's true
byte length, 68, the raw receive
`~m~68~m~` followed by the 68-byte qsd JSON payload is not a heartbeat and
results in exactly one onQuote call, with symbol OANDA:EURUSD and a
quote-data value whose price is 1.23 (the decimal 123·10⁻²) and whose
volume, bid and ask are all absent (nil). -/
theorem claim8_amended :
    mkFrame ("\x7b\"m\":\"qsd\",\"p\":[\"s1\",\x7b\"n\":\"OANDA:EURUSD\",\"s\":\"ok\",\"v\":\x7b\"lp\":1.23\x7d\x7d]\x7d".toList) =
      ("~m~68~m~".toList
        ++ "\x7b\"m\":\"qsd\",\"p\":[\"s1\",\x7b\"n\":\"OANDA:EURUSD\",\"s\":\"ok\",\"v\":\x7b\"lp\":1.23\x7d\x7d]\x7d".toList) ∧
    isKeepAliveMsg (mkFrame ("\x7b\"m\":\"qsd\",\"p\":[\"s1\",\x7b\"n\":\"OANDA:EURUSD\",\"s\":\"ok\",\"v\":\x7b\"lp\":1.23\x7d\x7d]\x7d".toList))
      = .ok false ∧
    parsePacket (mkFrame ("\x7b\"m\":\"qsd\",\"p\":[\"s1\",\x7b\"n\":\"OANDA:EURUSD\",\"s\":\"ok\",\"v\":\x7b\"lp\":1.23\x7d\x7d]\x7d".toList)) =
      ⟨[.quoteCb ("OANDA:EURUSD".toList) ⟨some ⟨123, -2⟩, none, none, none⟩], false⟩ :=
  ⟨by decide, rfl, by decide⟩

/-- Claim C10: when the transport write of an outgoing command fails — as
for AddSymbol or RemoveSymbol on a closed connection — the client returns
the error to the caller, closes the underlying connection, and invokes the
onError callback with a context carrying the send-message tag. -/
theorem claim10_send_failure (marshal : SocketMessage → Bytes) (sid symbol : Bytes) :
    (AddSymbolM marshal sid symbol false).errReturned = true ∧
    (AddSymbolM marshal sid symbol false).connClosed = true ∧
    (AddSymbolM marshal sid symbol false).events =
      [.errCb (SendMessageErrorContext ++ ctxSep
        ++ mkFrame (marshal (addSymbolMsg sid symbol))) true] ∧
    SendMessageErrorContext.isPrefixOf (SendMessageErrorContext ++ ctxSep
      ++ mkFrame (marshal (addSymbolMsg sid symbol))) = true ∧
    (RemoveSymbolM marshal sid symbol false).errReturned = true ∧
    (RemoveSymbolM marshal sid symbol false).connClosed = true ∧
    (RemoveSymbolM marshal sid symbol false).events =
      [.errCb (SendMessageErrorContext ++ ctxSep
        ++ mkFrame (marshal (removeSymbolMsg sid symbol))) true] := by
  refine ⟨rfl, rfl, rfl, ?_, rfl, rfl, rfl⟩
  rw [List.isPrefixOf_iff_prefix, List.append_assoc]
  exact List.prefix_append _ _

end TV
